import Mathlib

/-!
Verification of the `jsonrpcclient` request-building core
(`jsonrpcclient/request.py`) against its natural-language specification.

The embedding below translates the Python source shallowly:

* Python values that can appear as arguments or inside payloads are the
  inductive `PyVal` (`None`, `bool`, `int`, `str`, `list`, `tuple`, and
  string-keyed `dict`).
* A JSON-RPC payload (`Request`/`Notification` *are* `dict`s in the source)
  is an insertion-ordered association list `Payload`.
* `dict.update(key=value)` is `dictUpdate`: replace in place when the key is
  present, append otherwise — exactly Python's insertion-order semantics.
* `Notification.__init__` (request.py lines 87-107) is `Notification.init`.
* `Request.__init__` (request.py lines 131-141) is `Request.initSt`, in
  state-passing style: the mutable iterators become an explicit `Generator`
  value (the optional per-call `id_generator` argument and the class-level
  default `Request.id_generator`), and the function returns the payload
  together with the post-call states of both.
* `sort_request` (request.py lines 16-30) sorts the dict items with Python's
  stable `sorted` keyed by position in `["jsonrpc", "method", "params", "id"]`;
  `list.index` raises `ValueError` on an unknown key, hence the `Option`.
  Python's `sorted` is a stable sort; it is modelled by Mathlib's stable
  `List.insertionSort`.
* `Notification.__str__` is `json.dumps(sort_request(self))`; the wire text is
  modelled as the JSON value tree `Json` it denotes, with `dumps`/`loads`
  translating between Python values and JSON trees the way Python's `json`
  module does (tuples serialize as arrays; parsing arrays yields lists).
-/

/-- A Python value, as far as the request builder can observe one:
scalars, lists, tuples, and string-keyed dicts (keyword-argument mappings
are always string-keyed). -/
inductive PyVal where
  | none : PyVal
  | bool : Bool → PyVal
  | int : Int → PyVal
  | str : String → PyVal
  | list : List PyVal → PyVal
  | tuple : List PyVal → PyVal
  | dict : List (String × PyVal) → PyVal

/-- `isinstance(x, dict)`. -/
def PyVal.isDict : PyVal → Bool
  | .dict _ => true
  | _ => false

/-- `isinstance(x, list)`. -/
def PyVal.isList : PyVal → Bool
  | .list _ => true
  | _ => false

/-- A JSON-RPC payload: the `Request`/`Notification` objects are `dict`s in
the source, modelled as insertion-ordered association lists. -/
abbrev Payload : Type := List (String × PyVal)

/-- `d.update(k=v)` on a Python dict: if the key is present its value is
replaced in place (insertion order kept), otherwise the pair is appended. -/
def dictUpdate (d : Payload) (k : String) (v : PyVal) : Payload :=
  if d.any (fun p => p.1 == k) then
    d.map (fun p => if p.1 == k then (k, v) else p)
  else
    d ++ [(k, v)]

/-- The canonical key order of `sort_request` (request.py line 29). -/
def sort_order : List String := ["jsonrpc", "method", "params", "id"]

/-- The sort key used by `sort_request`: `sort_order.index(k[0])`. -/
def keyIdx (p : String × PyVal) : Nat := sort_order.indexOf p.1

/-- The order `sorted` uses in `sort_request`: compare items by the position
of their key in `sort_order`. -/
def keyLe (a b : String × PyVal) : Prop := keyIdx a ≤ keyIdx b

instance : DecidableRel keyLe := fun a b => Nat.decLe (keyIdx a) (keyIdx b)

instance : IsTotal (String × PyVal) keyLe := ⟨fun a b => Nat.le_total (keyIdx a) (keyIdx b)⟩

instance : IsTrans (String × PyVal) keyLe := ⟨fun _ _ _ hab hbc => Nat.le_trans hab hbc⟩

/-- `sort_request` (request.py lines 16-30): sort the request dict's items by
the position of their key in `sort_order`, with Python's stable `sorted`
(modelled by the stable `List.insertionSort`).  `sort_order.index` raises
`ValueError` for a key outside the canonical four, hence `none` then. -/
def sort_request (req : Payload) : Option Payload :=
  if req.all (fun p => sort_order.contains p.1) then
    some (List.insertionSort keyLe req)
  else
    Option.none

/-- A Python iterator of id values, as the request builder uses one: an
infinite stream of values together with a cursor marking how many values
have been consumed.  `next` yields the value under the cursor and advances
the cursor by one. -/
structure Generator where
  values : Nat → PyVal
  cursor : Nat

/-- `next(g)`: the value under the cursor, and the advanced iterator. -/
def Generator.next (g : Generator) : PyVal × Generator :=
  (g.values g.cursor, { g with cursor := g.cursor + 1 })

/-- Modelled from the spec: the `id_generators` module is not in the source
tree (only `request.py` is).  Per the spec's IdentifierGenerator contract,
`decimal(start, step)` "starts at a given integer (default 1), yields
strictly increasing integers, one per call, with a fixed step (default 1)". -/
def decimal (start : Int := 1) (step : Int := 1) : Generator :=
  { values := fun n => .int (start + step * n), cursor := 0 }

/-- `Notification.__init__` (request.py lines 87-107).  Builds the payload
from the method name, the positional-argument tuple and the keyword-argument
dict: start with `jsonrpc` and `method`, merge positional and keyword
arguments into `params_list` (the keyword dict appended as one trailing
element), omit `params` when that list is empty, unwrap a sole list/dict
element, and otherwise store the list itself. -/
def Notification.init (method : String) (args : List PyVal)
    (kwargs : List (String × PyVal)) : Payload :=
  let self := dictUpdate (dictUpdate [] "jsonrpc" (.str "2.0")) "method" (.str method)
  let params_list : List PyVal :=
    args ++ (if kwargs.isEmpty then [] else [PyVal.dict kwargs])
  if params_list.isEmpty then
    self
  else if params_list.length == 1
      && ((params_list.headD .none).isDict || (params_list.headD .none).isList) then
    dictUpdate self "params" (params_list.headD .none)
  else
    dictUpdate self "params" (.list params_list)

/-- State-passing form of `Notification.__init__`: the body (request.py
lines 87-107) never reads or advances any id generator, so its embedding
returns the ambient generator state unchanged alongside the payload. -/
def Notification.initSt (method : String) (args : List PyVal)
    (kwargs : List (String × PyVal)) (w : Generator) : Payload × Generator :=
  (Notification.init method args kwargs, w)

/-- The class attribute `Request.id_generator = id_generators.decimal()`
(request.py line 129): the default generator shared by all requests built
without an explicit generator, a decimal counter starting at 1. -/
def Request.id_generator : Generator := decimal 1 1

/-- `Request.__init__` (request.py lines 131-141), in state-passing style.
`id_generator` is the optional per-call iterator argument; `w` is the current
state of the class-level default `Request.id_generator`.  If `request_id`
is among the keyword arguments it is popped and used verbatim and no
generator is consulted; otherwise `next(id_generator or self.id_generator)`
is taken (a generator object is always truthy, so `or` picks the per-call
one exactly when it was supplied).  Returns the payload, the post-call
per-call generator state, and the post-call default-generator state. -/
def Request.initSt (method : String) (args : List PyVal)
    (id_generator : Option Generator) (kwargs : List (String × PyVal))
    (w : Generator) : Payload × Option Generator × Generator :=
  match kwargs.lookup "request_id" with
  | some v =>
      let kwargs' := kwargs.eraseP (fun p => p.1 == "request_id")
      (dictUpdate (Notification.init method args kwargs') "id" v, id_generator, w)
  | Option.none =>
      match id_generator with
      | some g =>
          let n := g.next
          (dictUpdate (Notification.init method args kwargs) "id" n.1, some n.2, w)
      | Option.none =>
          let n := w.next
          (dictUpdate (Notification.init method args kwargs) "id" n.1, Option.none, n.2)

/-- Embedding of `_RequestClassType.__getattr__` (request.py lines 40-55)
for the `Notification` class: accessing an undefined attribute `name` yields
a function that returns `cls(name, *args, **kwargs)`. -/
def Notification.attrHandler (name : String) (args : List PyVal)
    (kwargs : List (String × PyVal)) : Payload :=
  Notification.init name args kwargs

/-- Embedding of `_RequestClassType.__getattr__` (request.py lines 40-55)
for the `Request` class: accessing an undefined attribute `name` yields a
function that returns `cls(name, *args, **kwargs)`, generator state and all. -/
def Request.attrHandler (name : String) (args : List PyVal)
    (id_generator : Option Generator) (kwargs : List (String × PyVal))
    (w : Generator) : Payload × Option Generator × Generator :=
  Request.initSt name args id_generator kwargs w

/-- A JSON value: the tree a serialized payload text denotes.  `__str__`
produces `json.dumps(sort_request(self))`; the wire text is modelled by the
JSON tree it writes (whitespace and digit formatting carry no structure). -/
inductive Json where
  | null : Json
  | bool : Bool → Json
  | num : Int → Json
  | str : String → Json
  | arr : List Json → Json
  | obj : List (String × Json) → Json

mutual

/-- `json.dumps` on one Python value: `None` to `null`, lists *and tuples*
to arrays, string-keyed dicts to objects. -/
def dumps : PyVal → Json
  | .none => .null
  | .bool b => .bool b
  | .int n => .num n
  | .str s => .str s
  | .list xs => .arr (dumpsList xs)
  | .tuple xs => .arr (dumpsList xs)
  | .dict kvs => .obj (dumpsKV kvs)

/-- `json.dumps` elementwise on a Python list or tuple. -/
def dumpsList : List PyVal → List Json
  | [] => []
  | x :: xs => dumps x :: dumpsList xs

/-- `json.dumps` on the entries of a string-keyed dict. -/
def dumpsKV : List (String × PyVal) → List (String × Json)
  | [] => []
  | (k, v) :: kvs => (k, dumps v) :: dumpsKV kvs

end

mutual

/-- `json.loads` on one JSON value: arrays always come back as Python
lists, objects as dicts. -/
def loads : Json → PyVal
  | .null => .none
  | .bool b => .bool b
  | .num n => .int n
  | .str s => .str s
  | .arr xs => .list (loadsList xs)
  | .obj kvs => .dict (loadsKV kvs)

/-- `json.loads` elementwise on a JSON array. -/
def loadsList : List Json → List PyVal
  | [] => []
  | x :: xs => loads x :: loadsList xs

/-- `json.loads` on the entries of a JSON object. -/
def loadsKV : List (String × Json) → List (String × PyVal)
  | [] => []
  | (k, v) :: kvs => (k, loads v) :: loadsKV kvs

end

mutual

/-- A Python value that `json.dumps` followed by `json.loads` maps to
itself: scalars, and lists / string-keyed dicts of such values.  Tuples are
excluded: they serialize as arrays and parse back as lists. -/
def jsonNative : PyVal → Bool
  | .none => true
  | .bool _ => true
  | .int _ => true
  | .str _ => true
  | .list xs => nativesList xs
  | .tuple _ => false
  | .dict kvs => nativesKV kvs

/-- All values of a list are JSON-native. -/
def nativesList : List PyVal → Bool
  | [] => true
  | x :: xs => jsonNative x && nativesList xs

/-- All values of a string-keyed dict are JSON-native. -/
def nativesKV : List (String × PyVal) → Bool
  | [] => true
  | (_, v) :: kvs => jsonNative v && nativesKV kvs

end

/-- `str(payload_object)` (request.py lines 109-111), i.e.
`json.dumps(sort_request(self))`, as the JSON tree the emitted text denotes;
`none` when `sort_request` raises. -/
def Notification.strJson (p : Payload) : Option Json :=
  (sort_request p).map (fun l => Json.obj (l.map (fun kv => (kv.1, dumps kv.2))))

/-- `json.loads` applied to a serialized payload: a JSON object parses back
to a Python dict of parsed values; any other tree is not a payload. -/
def parseObj : Json → Option Payload
  | .obj kvs => some (loadsKV kvs)
  | _ => Option.none

/-- Round-trip property of one payload: serializing succeeds and parsing the
emitted text back yields a mapping with exactly the original entries (a dict
equal to the original, entry for entry). -/
def roundTrips (p : Payload) : Prop :=
  ∃ j parsed, Notification.strJson p = some j ∧ parseObj j = some parsed ∧
    parsed.Perm p

/-- The working list of the spec's params-shape algorithm, steps 1-2, as the
spec states it: all positional arguments in call order, then, if any keyword
arguments were supplied, the keyword mapping itself as one trailing
element. -/
def spec_workingList (args : List PyVal) (kwargs : List (String × PyVal)) :
    List PyVal :=
  args ++ (if kwargs.isEmpty then [] else [PyVal.dict kwargs])

/-- A value that is "itself a sequence or a mapping" in the spec's words,
read with Python's notion of sequence: lists, tuples and strings are
sequences (all are `collections.abc.Sequence` instances), dicts are
mappings. -/
def spec_isSequenceOrMapping : PyVal → Bool
  | .list _ => true
  | .tuple _ => true
  | .str _ => true
  | .dict _ => true
  | _ => false

/-- The spec's single-element unwrap condition (step 4): the working list
has exactly one element and that element is itself a sequence or a
mapping. -/
def spec_unwrapApplies (args : List PyVal) (kwargs : List (String × PyVal)) :
    Bool :=
  (spec_workingList args kwargs).length == 1
    && spec_isSequenceOrMapping ((spec_workingList args kwargs).headD .none)

/-! ## Helper lemmas -/

theorem dictUpdate_of_not_mem {d : Payload} {k : String} {v : PyVal}
    (h : k ∉ d.map Prod.fst) : dictUpdate d k v = d ++ [(k, v)] := by
  unfold dictUpdate
  rw [if_neg]
  intro hc
  simp only [List.any_eq_true, beq_iff_eq] at hc
  obtain ⟨p, hp, he⟩ := hc
  exact h (he ▸ List.mem_map_of_mem Prod.fst hp)

theorem lookup_append (l₁ l₂ : Payload) (k : String) :
    (l₁ ++ l₂).lookup k = (l₁.lookup k).or (l₂.lookup k) := by
  induction l₁ with
  | nil => simp [List.lookup]
  | cons p t ih =>
      rcases p with ⟨a, b⟩
      by_cases hak : k = a
      · subst hak
        simp [List.lookup]
      · have hb : (k == a) = false := beq_eq_false_iff_ne.mpr hak
        simp [List.lookup, hb, ih]

theorem lookup_eq_none_iff {k : String} {l : Payload} :
    l.lookup k = Option.none ↔ ∀ p ∈ l, p.1 ≠ k := by
  induction l with
  | nil => simp [List.lookup]
  | cons p t ih =>
      rcases p with ⟨a, b⟩
      by_cases hak : k = a
      · subst hak
        simp [List.lookup]
      · have hb : (k == a) = false := beq_eq_false_iff_ne.mpr hak
        have hak' : a ≠ k := fun he => hak he.symm
        simp [List.lookup, hb, ih, hak']

/-- Branch characterization of `Notification.__init__`: the built payload in
each of the three branches of the source, with the working list written as
`spec_workingList` (which the source computes identically). -/
theorem notification_init_eq (m : String) (args : List PyVal)
    (kwargs : List (String × PyVal)) :
    Notification.init m args kwargs =
      (if (spec_workingList args kwargs).isEmpty then
        [("jsonrpc", PyVal.str "2.0"), ("method", PyVal.str m)]
      else if (spec_workingList args kwargs).length == 1
          && (((spec_workingList args kwargs).headD .none).isDict
            || ((spec_workingList args kwargs).headD .none).isList) then
        [("jsonrpc", PyVal.str "2.0"), ("method", PyVal.str m),
          ("params", (spec_workingList args kwargs).headD .none)]
      else
        [("jsonrpc", PyVal.str "2.0"), ("method", PyVal.str m),
          ("params", PyVal.list (spec_workingList args kwargs))]) := by
  unfold Notification.init spec_workingList
  dsimp only
  split
  · rfl
  · split <;> rfl

/-- The key list of a built notification payload: `jsonrpc`, `method`, and
possibly `params`. -/
theorem notification_keys (m : String) (args : List PyVal)
    (kwargs : List (String × PyVal)) :
    (Notification.init m args kwargs).map Prod.fst = ["jsonrpc", "method"] ∨
    (Notification.init m args kwargs).map Prod.fst
      = ["jsonrpc", "method", "params"] := by
  rw [notification_init_eq]
  split
  · exact Or.inl rfl
  · split <;> exact Or.inr rfl

theorem id_not_mem_notification_keys (m : String) (args : List PyVal)
    (kwargs : List (String × PyVal)) :
    "id" ∉ (Notification.init m args kwargs).map Prod.fst := by
  rcases notification_keys m args kwargs with h | h <;> rw [h] <;> decide

/-- Branch characterization of `Request.__init__`: the payload is the
notification payload (with `request_id` popped from the keyword arguments
when present) with `("id", v)` appended, and the generator states advance as
the branch dictates. -/
theorem request_initSt_eq (m : String) (args : List PyVal)
    (gOpt : Option Generator) (kwargs : List (String × PyVal)) (w : Generator) :
    Request.initSt m args gOpt kwargs w =
      (match kwargs.lookup "request_id" with
      | some v =>
          (Notification.init m args (kwargs.eraseP (fun p => p.1 == "request_id"))
            ++ [("id", v)], gOpt, w)
      | Option.none =>
          match gOpt with
          | some g =>
              (Notification.init m args kwargs ++ [("id", g.values g.cursor)],
                some ⟨g.values, g.cursor + 1⟩, w)
          | Option.none =>
              (Notification.init m args kwargs ++ [("id", w.values w.cursor)],
                Option.none, ⟨w.values, w.cursor + 1⟩)) := by
  unfold Request.initSt
  rcases hk : kwargs.lookup "request_id" with _ | v
  · rcases gOpt with _ | g <;>
      simp [Generator.next,
        dictUpdate_of_not_mem (id_not_mem_notification_keys m args kwargs)]
  · simp [dictUpdate_of_not_mem (id_not_mem_notification_keys m args
      (kwargs.eraseP (fun p => p.1 == "request_id")))]

/-- The key list of a built request payload is that of a notification
payload with `"id"` appended. -/
theorem request_keys (m : String) (args : List PyVal) (gOpt : Option Generator)
    (kwargs : List (String × PyVal)) (w : Generator) :
    ∃ kw', ((Request.initSt m args gOpt kwargs w).1).map Prod.fst =
      (Notification.init m args kw').map Prod.fst ++ ["id"] := by
  rw [request_initSt_eq]
  rcases hk : kwargs.lookup "request_id" with _ | v
  · rcases gOpt with _ | g <;> exact ⟨kwargs, by simp⟩
  · exact ⟨kwargs.eraseP (fun p => p.1 == "request_id"), by simp⟩

theorem isDictOrList_imp_spec (v : PyVal) :
    (v.isDict || v.isList) = true → spec_isSequenceOrMapping v = true := by
  cases v <;> simp [PyVal.isDict, PyVal.isList, spec_isSequenceOrMapping]

/-! ## Claim theorems -/

/-- C1: params shape resolution follows the stated algorithm for every
method name, positional argument list and keyword mapping: the positional
arguments are collected in call order, a supplied keyword mapping is
appended as one trailing element, an empty working list omits `params`
entirely, and otherwise (outside the single-element unwrap case) `params`
is the working list itself; in particular a no-argument notification has
keys exactly `jsonrpc, method`. -/
theorem C1_params_shape (m : String) (args : List PyVal)
    (kwargs : List (String × PyVal)) :
    ((spec_workingList args kwargs).isEmpty = true →
      Notification.init m args kwargs
        = [("jsonrpc", PyVal.str "2.0"), ("method", PyVal.str m)]) ∧
    ((spec_workingList args kwargs).isEmpty = false →
      spec_unwrapApplies args kwargs = false →
      List.lookup "params" (Notification.init m args kwargs)
        = some (PyVal.list (spec_workingList args kwargs))) ∧
    (Notification.init m [] []).map Prod.fst = ["jsonrpc", "method"] := by
  refine ⟨fun h => ?_, fun h1 h2 => ?_, ?_⟩
  · rw [notification_init_eq, if_pos h]
  · have hcode : ((spec_workingList args kwargs).length == 1
        && (((spec_workingList args kwargs).headD .none).isDict
          || ((spec_workingList args kwargs).headD .none).isList)) = false := by
      by_contra hc
      rw [Bool.not_eq_false, Bool.and_eq_true] at hc
      have : spec_unwrapApplies args kwargs = true := by
        unfold spec_unwrapApplies
        rw [Bool.and_eq_true]
        exact ⟨hc.1, isDictOrList_imp_spec _ hc.2⟩
      rw [this] at h2
      cases h2
    rw [notification_init_eq, if_neg (by simp [h1]),
      if_neg (by rw [hcode]; simp)]
    simp [List.lookup]
  · rfl

/-- C1 witness: the no-argument case yields exactly the base payload, and a
two-positional-argument call stores the working list itself as `params`. -/
theorem C1_params_shape_witness :
    Notification.init "nop" [] []
      = [("jsonrpc", PyVal.str "2.0"), ("method", PyVal.str "nop")] ∧
    List.lookup "params"
        (Notification.init "cat" [PyVal.str "Mittens", PyVal.int 5] [])
      = some (PyVal.list [PyVal.str "Mittens", PyVal.int 5]) :=
  ⟨(C1_params_shape "nop" [] []).1 rfl,
    (C1_params_shape "cat" [PyVal.str "Mittens", PyVal.int 5] []).2.1 rfl rfl⟩

/-- C2 counterexample: a tuple is a Python sequence, yet a single tuple
argument is not unwrapped — the code only unwraps `list` and `dict`
instances, so `params` comes out as a one-element list holding the tuple,
not as the tuple itself. -/
theorem C2_counterexample :
    spec_isSequenceOrMapping
      (PyVal.tuple [PyVal.int 1, PyVal.int 2, PyVal.int 3]) = true ∧
    List.lookup "params"
        (Notification.init "find"
          [PyVal.tuple [PyVal.int 1, PyVal.int 2, PyVal.int 3]] [])
      = some (PyVal.list [PyVal.tuple [PyVal.int 1, PyVal.int 2, PyVal.int 3]]) ∧
    PyVal.list [PyVal.tuple [PyVal.int 1, PyVal.int 2, PyVal.int 3]]
      ≠ PyVal.tuple [PyVal.int 1, PyVal.int 2, PyVal.int 3] :=
  ⟨rfl, rfl, fun h => PyVal.noConfusion h⟩

/-- C2 (amended): the unwrap rule applies exactly when the sole argument is
a `list` or `dict` instance — a sole positional list/dict becomes `params`
directly while any other sole value (tuples and strings included) stays
wrapped in a one-element list, and a keyword-only call's mapping becomes
`params` directly. -/
theorem C2_unwrap_amended (m : String) (arg : PyVal)
    (kwargs : List (String × PyVal)) :
    List.lookup "params" (Notification.init m [arg] [])
      = some (if arg.isDict || arg.isList then arg else PyVal.list [arg]) ∧
    (kwargs.isEmpty = false →
      List.lookup "params" (Notification.init m [] kwargs)
        = some (PyVal.dict kwargs)) := by
  constructor
  · rw [notification_init_eq]
    cases h : arg.isDict || arg.isList <;>
      simp [spec_workingList, h, List.lookup]
  · intro hk
    rw [notification_init_eq]
    simp [spec_workingList, hk, PyVal.isDict, List.lookup]

/-- C2 amended-claim witness: a sole scalar stays wrapped, a sole list is
unwrapped, a keyword-only mapping is unwrapped. -/
theorem C2_unwrap_amended_witness :
    List.lookup "params" (Notification.init "sum" [PyVal.int 3] [])
      = some (PyVal.list [PyVal.int 3]) ∧
    List.lookup "params"
        (Notification.init "find" [PyVal.list [PyVal.int 1, PyVal.int 2]] [])
      = some (PyVal.list [PyVal.int 1, PyVal.int 2]) ∧
    List.lookup "params"
        (Notification.init "cat" [] [("name", PyVal.str "Mittens")])
      = some (PyVal.dict [("name", PyVal.str "Mittens")]) :=
  ⟨(C2_unwrap_amended "sum" (PyVal.int 3) []).1,
    (C2_unwrap_amended "find" (PyVal.list [PyVal.int 1, PyVal.int 2]) []).1,
    (C2_unwrap_amended "cat" (PyVal.int 0) [("name", PyVal.str "Mittens")]).2 rfl⟩

/-- C3: a request built without an explicit id and without a per-call
generator draws its id from the shared default decimal counter starting at
1: after `c` prior consumptions the next id is the integer `1 + c` and the
cursor advances to `c + 1`, so consecutive such builds receive strictly
increasing consecutive ids — the first from a fresh default generator gets
1, the next gets 2. -/
theorem C3_default_id_counter (m m2 : String) (args args2 : List PyVal)
    (kwargs kwargs2 : List (String × PyVal)) (c : Nat)
    (h : kwargs.lookup "request_id" = Option.none)
    (h2 : kwargs2.lookup "request_id" = Option.none) :
    (((Request.initSt m args Option.none kwargs
        ⟨Request.id_generator.values, c⟩).1).lookup "id"
      = some (PyVal.int (1 + c)) ∧
    (Request.initSt m args Option.none kwargs
        ⟨Request.id_generator.values, c⟩).2.2
      = ⟨Request.id_generator.values, c + 1⟩) ∧
    (((Request.initSt m args Option.none kwargs Request.id_generator).1).lookup "id"
      = some (PyVal.int 1) ∧
    ((Request.initSt m2 args2 Option.none kwargs2
        (Request.initSt m args Option.none kwargs
          Request.id_generator).2.2).1).lookup "id"
      = some (PyVal.int 2)) := by
  have hval : ∀ n : Nat, Request.id_generator.values n = PyVal.int (1 + n) := by
    intro n
    show PyVal.int (1 + 1 * (n : Int)) = PyVal.int (1 + n)
    rw [one_mul]
  have hlook : ∀ (m' : String) (args' : List PyVal)
      (kwargs' : List (String × PyVal)) (w : Generator),
      kwargs'.lookup "request_id" = Option.none →
      ((Request.initSt m' args' Option.none kwargs' w).1).lookup "id"
        = some (w.values w.cursor) := by
    intro m' args' kwargs' w hw
    rw [request_initSt_eq, hw]
    rw [lookup_append _ _ "id",
      lookup_eq_none_iff.mpr (by
        intro p hp he
        exact id_not_mem_notification_keys m' args' kwargs'
          (he ▸ List.mem_map_of_mem Prod.fst hp))]
    simp [List.lookup]
  have hstate : ∀ (m' : String) (args' : List PyVal)
      (kwargs' : List (String × PyVal)) (w : Generator),
      kwargs'.lookup "request_id" = Option.none →
      (Request.initSt m' args' Option.none kwargs' w).2.2
        = ⟨w.values, w.cursor + 1⟩ := by
    intro m' args' kwargs' w hw
    rw [request_initSt_eq, hw]
  refine ⟨⟨?_, ?_⟩, ?_, ?_⟩
  · rw [hlook m args kwargs _ h]
    exact congrArg some (hval c)
  · exact hstate m args kwargs _ h
  · rw [hlook m args kwargs _ h]
    exact congrArg some (hval 0)
  · rw [hstate m args kwargs _ h, hlook m2 args2 kwargs2 _ h2]
    exact congrArg some (hval 1)

/-- C3 witness: two consecutive keyword-argument requests on the fresh
default generator get ids 1 and 2, and the general counter step holds at
cursor 41. -/
theorem C3_default_id_counter_witness :
    (((Request.initSt "cat" [] Option.none [("name", PyVal.str "Mittens")]
        ⟨Request.id_generator.values, 41⟩).1).lookup "id"
      = some (PyVal.int 42) ∧
    (Request.initSt "cat" [] Option.none [("name", PyVal.str "Mittens")]
        ⟨Request.id_generator.values, 41⟩).2.2
      = ⟨Request.id_generator.values, 42⟩) ∧
    (((Request.initSt "cat" [] Option.none [("name", PyVal.str "Mittens")]
        Request.id_generator).1).lookup "id" = some (PyVal.int 1) ∧
    ((Request.initSt "dog" [] Option.none []
        (Request.initSt "cat" [] Option.none [("name", PyVal.str "Mittens")]
          Request.id_generator).2.2).1).lookup "id" = some (PyVal.int 2)) :=
  C3_default_id_counter "cat" "dog" [] [] [("name", PyVal.str "Mittens")] [] 41
    rfl rfl

/-- C4: a caller-supplied explicit id (the reserved keyword `request_id`)
is used verbatim as the payload's id, no generator is consulted — the
per-call generator argument and the default generator both come back
unchanged — and in particular `Request('cat', request_id=5)` yields exactly
`jsonrpc, method, id` with id 5 and an untouched default cursor. -/
theorem C4_explicit_id_override (m : String) (args : List PyVal)
    (gOpt : Option Generator) (kwargs : List (String × PyVal)) (w : Generator)
    (v : PyVal) (h : kwargs.lookup "request_id" = some v) :
    ((Request.initSt m args gOpt kwargs w).1).lookup "id" = some v ∧
    (Request.initSt m args gOpt kwargs w).2.1 = gOpt ∧
    (Request.initSt m args gOpt kwargs w).2.2 = w ∧
    (Request.initSt "cat" [] Option.none [("request_id", PyVal.int 5)]
        Request.id_generator).1
      = [("jsonrpc", PyVal.str "2.0"), ("method", PyVal.str "cat"),
          ("id", PyVal.int 5)] ∧
    (Request.initSt "cat" [] Option.none [("request_id", PyVal.int 5)]
        Request.id_generator).2.2 = Request.id_generator := by
  refine ⟨?_, ?_, ?_, rfl, rfl⟩
  · rw [request_initSt_eq, h]
    rw [lookup_append _ _ "id",
      lookup_eq_none_iff.mpr (by
        intro p hp he
        exact id_not_mem_notification_keys m args
          (kwargs.eraseP (fun p => p.1 == "request_id"))
          (he ▸ List.mem_map_of_mem Prod.fst hp))]
    simp [List.lookup]
  · rw [request_initSt_eq, h]
  · rw [request_initSt_eq, h]

/-- C4 witness: an explicit id 7 next to another keyword argument, with a
per-call generator also supplied; the id is 7 and both generators are
untouched. -/
theorem C4_explicit_id_override_witness :
    ((Request.initSt "cat" [] (some (decimal 4 1))
        [("request_id", PyVal.int 7), ("name", PyVal.str "Mittens")]
        Request.id_generator).1).lookup "id" = some (PyVal.int 7) ∧
    (Request.initSt "cat" [] (some (decimal 4 1))
        [("request_id", PyVal.int 7), ("name", PyVal.str "Mittens")]
        Request.id_generator).2.1 = some (decimal 4 1) ∧
    (Request.initSt "cat" [] (some (decimal 4 1))
        [("request_id", PyVal.int 7), ("name", PyVal.str "Mittens")]
        Request.id_generator).2.2 = Request.id_generator ∧
    (Request.initSt "cat" [] Option.none [("request_id", PyVal.int 5)]
        Request.id_generator).1
      = [("jsonrpc", PyVal.str "2.0"), ("method", PyVal.str "cat"),
          ("id", PyVal.int 5)] ∧
    (Request.initSt "cat" [] Option.none [("request_id", PyVal.int 5)]
        Request.id_generator).2.2 = Request.id_generator := by
  have h := C4_explicit_id_override "cat" [] (some (decimal 4 1))
    [("request_id", PyVal.int 7), ("name", PyVal.str "Mittens")]
    Request.id_generator (PyVal.int 7) rfl
  exact ⟨h.1, h.2.1, h.2.2.1, h.2.2.2.1, h.2.2.2.2⟩

/-- C5: a notification payload never contains an `id` key and a request
payload always does, for every method name and argument combination — the
presence of `id` is exactly what distinguishes the two payload kinds. -/
theorem C5_id_presence (m : String) (args : List PyVal)
    (kwargs : List (String × PyVal)) (gOpt : Option Generator) (w : Generator) :
    "id" ∉ (Notification.init m args kwargs).map Prod.fst ∧
    "id" ∈ ((Request.initSt m args gOpt kwargs w).1).map Prod.fst := by
  refine ⟨id_not_mem_notification_keys m args kwargs, ?_⟩
  obtain ⟨kw', hk⟩ := request_keys m args gOpt kwargs w
  rw [hk]
  simp

/-- C6: building a request with no explicit id advances the chosen
generator's cursor by exactly one step and consumes exactly the value under
its cursor — the per-call generator when one is supplied (the default then
untouched), the default otherwise — while building a notification touches
no generator state at all. -/
theorem C6_generator_frame (m : String) (args : List PyVal)
    (kwargs : List (String × PyVal)) (g w : Generator)
    (h : kwargs.lookup "request_id" = Option.none) :
    (Request.initSt m args (some g) kwargs w).2.1
      = some ⟨g.values, g.cursor + 1⟩ ∧
    (Request.initSt m args (some g) kwargs w).2.2 = w ∧
    ((Request.initSt m args (some g) kwargs w).1).lookup "id"
      = some (g.values g.cursor) ∧
    (Request.initSt m args Option.none kwargs w).2.1 = Option.none ∧
    (Request.initSt m args Option.none kwargs w).2.2
      = ⟨w.values, w.cursor + 1⟩ ∧
    ((Request.initSt m args Option.none kwargs w).1).lookup "id"
      = some (w.values w.cursor) ∧
    (Notification.initSt m args kwargs w).2 = w := by
  have hid : ∀ kw' : List (String × PyVal),
      (List.lookup "id" (Notification.init m args kw') : Option PyVal)
        = Option.none :=
    fun kw' => lookup_eq_none_iff.mpr (by
      intro p hp he
      exact id_not_mem_notification_keys m args kw'
        (he ▸ List.mem_map_of_mem Prod.fst hp))
  refine ⟨?_, ?_, ?_, ?_, ?_, ?_, rfl⟩ <;> rw [request_initSt_eq, h] <;>
    dsimp only <;>
    rw [lookup_append _ _ "id", hid kwargs] <;>
    simp [List.lookup]

/-- C6 witness: with a supplied generator at cursor 3 the request consumes
exactly its cursor-3 value and advances it to 4, leaving the default at
cursor 0; without one the default advances from 0 to 1; a notification
leaves the state alone. -/
theorem C6_generator_frame_witness :
    (Request.initSt "cat" [] (some ⟨fun n => PyVal.int n, 3⟩) []
        Request.id_generator).2.1 = some ⟨(⟨fun n => PyVal.int n, 3⟩ : Generator).values, 4⟩ ∧
    (Request.initSt "cat" [] (some ⟨fun n => PyVal.int n, 3⟩) []
        Request.id_generator).2.2 = Request.id_generator ∧
    ((Request.initSt "cat" [] (some ⟨fun n => PyVal.int n, 3⟩) []
        Request.id_generator).1).lookup "id" = some (PyVal.int 3) ∧
    (Request.initSt "cat" [] Option.none [] Request.id_generator).2.1
      = Option.none ∧
    (Request.initSt "cat" [] Option.none [] Request.id_generator).2.2
      = ⟨Request.id_generator.values, 1⟩ ∧
    ((Request.initSt "cat" [] Option.none [] Request.id_generator).1).lookup "id"
      = some (Request.id_generator.values 0) ∧
    (Notification.initSt "cat" [] [] Request.id_generator).2
      = Request.id_generator :=
  C6_generator_frame "cat" [] [] ⟨fun n => PyVal.int n, 3⟩
    Request.id_generator rfl

/-- C8: the method-as-identifier attribute form — the `__getattr__` handler
returned for an undefined attribute `name` — builds exactly the payload the
direct call with `name` as first parameter builds, with exactly the same
generator effect, for every name and argument combination; it adds no
semantics of its own. -/
theorem C8_attr_form_equiv (name : String) (args : List PyVal)
    (gOpt : Option Generator) (kwargs : List (String × PyVal)) (w : Generator) :
    Request.attrHandler name args gOpt kwargs w
      = Request.initSt name args gOpt kwargs w ∧
    Notification.attrHandler name args kwargs
      = Notification.init name args kwargs :=
  ⟨rfl, rfl⟩

theorem notification_keys_sub (m : String) (args : List PyVal)
    (kwargs : List (String × PyVal)) :
    ∀ k ∈ (Notification.init m args kwargs).map Prod.fst, k ∈ sort_order := by
  rcases notification_keys m args kwargs with h | h <;> rw [h] <;> decide

theorem request_keys_sub (m : String) (args : List PyVal)
    (gOpt : Option Generator) (kwargs : List (String × PyVal)) (w : Generator) :
    ∀ k ∈ ((Request.initSt m args gOpt kwargs w).1).map Prod.fst,
      k ∈ sort_order := by
  obtain ⟨kw', hk⟩ := request_keys m args gOpt kwargs w
  rw [hk]
  intro k hkmem
  rcases List.mem_append.mp hkmem with hm | hm
  · exact notification_keys_sub m args kw' k hm
  · have hk : k = "id" := by simpa using hm
    subst hk
    decide

theorem sort_request_eq_of_keys {req : Payload}
    (h : ∀ k ∈ req.map Prod.fst, k ∈ sort_order) :
    sort_request req = some (List.insertionSort keyLe req) := by
  unfold sort_request
  rw [if_pos]
  rw [List.all_eq_true]
  intro p hp
  exact List.elem_iff.mpr (h p.1 (List.mem_map_of_mem Prod.fst hp))

/-- C10: every built payload's key set is contained in
`jsonrpc, method, params, id`, always binds `jsonrpc` to the literal "2.0"
and `method` to the given name verbatim; a `request_id` keyword is stripped
before params construction — the request's `params` is exactly the
notification `params` of the remaining keyword arguments — and
`sort_request` (which looks each key up in the canonical list and would
fail on any other key) therefore succeeds on every built payload. -/
theorem C10_payload_invariant (m : String) (args : List PyVal)
    (kwargs : List (String × PyVal)) (gOpt : Option Generator) (w : Generator) :
    (∀ k ∈ (Notification.init m args kwargs).map Prod.fst, k ∈ sort_order) ∧
    (∀ k ∈ ((Request.initSt m args gOpt kwargs w).1).map Prod.fst,
      k ∈ sort_order) ∧
    (Notification.init m args kwargs).lookup "jsonrpc"
      = some (PyVal.str "2.0") ∧
    ((Request.initSt m args gOpt kwargs w).1).lookup "jsonrpc"
      = some (PyVal.str "2.0") ∧
    (Notification.init m args kwargs).lookup "method" = some (PyVal.str m) ∧
    ((Request.initSt m args gOpt kwargs w).1).lookup "method"
      = some (PyVal.str m) ∧
    ((Request.initSt m args gOpt kwargs w).1).lookup "params"
      = (Notification.init m args
          (kwargs.eraseP (fun p => p.1 == "request_id"))).lookup "params" ∧
    (sort_request (Notification.init m args kwargs)).isSome = true ∧
    (sort_request ((Request.initSt m args gOpt kwargs w).1)).isSome = true := by
  have hnjson : ∀ kw' : List (String × PyVal),
      (Notification.init m args kw').lookup "jsonrpc"
        = some (PyVal.str "2.0") := by
    intro kw'
    rw [notification_init_eq]
    split
    · simp [List.lookup]
    · split <;> simp [List.lookup]
  have hnmeth : ∀ kw' : List (String × PyVal),
      (Notification.init m args kw').lookup "method" = some (PyVal.str m) := by
    intro kw'
    rw [notification_init_eq]
    split
    · simp [List.lookup]
    · split <;> simp [List.lookup]
  have herase : kwargs.lookup "request_id" = Option.none →
      kwargs.eraseP (fun p => p.1 == "request_id") = kwargs := by
    intro h
    refine List.eraseP_of_forall_not ?_
    intro p hp
    simp only [beq_iff_eq]
    exact lookup_eq_none_iff.mp h p hp
  refine ⟨notification_keys_sub m args kwargs,
    request_keys_sub m args gOpt kwargs w,
    hnjson kwargs, ?_, hnmeth kwargs, ?_, ?_, ?_, ?_⟩
  · rw [request_initSt_eq]
    rcases hk : kwargs.lookup "request_id" with _ | v
    · rcases gOpt with _ | g <;>
        · dsimp only
          rw [lookup_append, hnjson kwargs]
          rfl
    · dsimp only
      rw [lookup_append, hnjson (kwargs.eraseP (fun p => p.1 == "request_id"))]
      rfl
  · rw [request_initSt_eq]
    rcases hk : kwargs.lookup "request_id" with _ | v
    · rcases gOpt with _ | g <;>
        · dsimp only
          rw [lookup_append, hnmeth kwargs]
          rfl
    · dsimp only
      rw [lookup_append, hnmeth (kwargs.eraseP (fun p => p.1 == "request_id"))]
      rfl
  · rw [request_initSt_eq]
    rcases hk : kwargs.lookup "request_id" with _ | v
    · rcases gOpt with _ | g <;>
        · dsimp only
          rw [lookup_append, herase hk]
          simp [List.lookup]
    · dsimp only
      rw [lookup_append]
      simp [List.lookup]
  · rw [sort_request_eq_of_keys (notification_keys_sub m args kwargs)]
    rfl
  · rw [sort_request_eq_of_keys (request_keys_sub m args gOpt kwargs w)]
    rfl

theorem notification_keys_nodup (m : String) (args : List PyVal)
    (kwargs : List (String × PyVal)) :
    ((Notification.init m args kwargs).map Prod.fst).Nodup := by
  rcases notification_keys m args kwargs with h | h <;> rw [h] <;> decide

theorem request_keys_nodup (m : String) (args : List PyVal)
    (gOpt : Option Generator) (kwargs : List (String × PyVal)) (w : Generator) :
    (((Request.initSt m args gOpt kwargs w).1).map Prod.fst).Nodup := by
  obtain ⟨kw', hk⟩ := request_keys m args gOpt kwargs w
  rw [hk]
  rcases notification_keys m args kw' with h | h <;> rw [h] <;> decide

/-- C7: serializing any built payload sorts its entries into the canonical
`jsonrpc, method, params, id` order, regardless of the insertion order used
during construction: for every list of entries `q` that is a permutation
of a built payload (any insertion order), `sort_request` succeeds and
returns the same entries arranged with strictly increasing canonical key
positions, with `params`/`id` appearing only when present. -/
theorem C7_canonical_key_order (m : String) (args : List PyVal)
    (kwargs : List (String × PyVal)) (gOpt : Option Generator) (w : Generator)
    (q : Payload)
    (hq : List.Perm q (Notification.init m args kwargs) ∨
      List.Perm q ((Request.initSt m args gOpt kwargs w).1)) :
    ∃ l, sort_request q = some l ∧ List.Perm l q ∧
      List.Sorted (· < ·) (l.map keyIdx) := by
  have hnd : (q.map Prod.fst).Nodup := by
    rcases hq with hp | hp
    · rw [(hp.map Prod.fst).nodup_iff]
      exact notification_keys_nodup m args kwargs
    · rw [(hp.map Prod.fst).nodup_iff]
      exact request_keys_nodup m args gOpt kwargs w
  have hsub : ∀ k ∈ q.map Prod.fst, k ∈ sort_order := by
    rcases hq with hp | hp
    · exact fun k hk =>
        notification_keys_sub m args kwargs k ((hp.map Prod.fst).mem_iff.mp hk)
    · exact fun k hk =>
        request_keys_sub m args gOpt kwargs w k ((hp.map Prod.fst).mem_iff.mp hk)
  have hperm2 : List.Perm (List.insertionSort keyLe q) q :=
    List.perm_insertionSort keyLe q
  refine ⟨List.insertionSort keyLe q, sort_request_eq_of_keys hsub, hperm2, ?_⟩
  have hsorted : List.Sorted keyLe (List.insertionSort keyLe q) :=
    List.sorted_insertionSort keyLe q
  have hle : List.Sorted (· ≤ ·) ((List.insertionSort keyLe q).map keyIdx) := by
    show ((List.insertionSort keyLe q).map keyIdx).Pairwise (· ≤ ·)
    rw [List.pairwise_map]
    exact hsorted
  have hmapnodup : ((List.insertionSort keyLe q).map keyIdx).Nodup := by
    have hkeysnd : ((List.insertionSort keyLe q).map Prod.fst).Nodup := by
      rw [(hperm2.map Prod.fst).nodup_iff]
      exact hnd
    have hkeyssub : ∀ k ∈ (List.insertionSort keyLe q).map Prod.fst,
        k ∈ sort_order :=
      fun k hk => hsub k ((hperm2.map Prod.fst).mem_iff.mp hk)
    have hcomp : (List.insertionSort keyLe q).map keyIdx
        = ((List.insertionSort keyLe q).map Prod.fst).map
            (fun k => sort_order.indexOf k) := by
      rw [List.map_map]
      rfl
    rw [hcomp]
    exact hkeysnd.map_on (fun x hx y hy hxy =>
      (List.indexOf_inj (hkeyssub x hx) (hkeyssub y hy)).mp hxy)
  exact hle.lt_of_le hmapnodup

/-- C7 witness: a payload presented with `method` inserted before `jsonrpc`
still serializes in canonical order. -/
theorem C7_canonical_key_order_witness :
    ∃ l, sort_request [("method", PyVal.str "cat"), ("jsonrpc", PyVal.str "2.0")]
        = some l ∧
      List.Perm l [("method", PyVal.str "cat"), ("jsonrpc", PyVal.str "2.0")] ∧
      List.Sorted (· < ·) (l.map keyIdx) :=
  C7_canonical_key_order "cat" [] [] Option.none Request.id_generator
    [("method", PyVal.str "cat"), ("jsonrpc", PyVal.str "2.0")]
    (Or.inl (List.Perm.swap ("jsonrpc", PyVal.str "2.0")
      ("method", PyVal.str "cat") []))

theorem nativesList_mem {xs : List PyVal} (h : nativesList xs = true) :
    ∀ x ∈ xs, jsonNative x = true := by
  induction xs with
  | nil => intro x hx; cases hx
  | cons a t ih =>
      rw [nativesList, Bool.and_eq_true] at h
      intro x hx
      rcases List.mem_cons.mp hx with rfl | hkm
      · exact h.1
      · exact ih h.2 x hkm

theorem nativesKV_mem {kvs : List (String × PyVal)} (h : nativesKV kvs = true) :
    ∀ p ∈ kvs, jsonNative p.2 = true := by
  induction kvs with
  | nil => intro p hp; cases hp
  | cons a t ih =>
      rcases a with ⟨k, v⟩
      rw [nativesKV, Bool.and_eq_true] at h
      intro p hp
      rcases List.mem_cons.mp hp with rfl | hkm
      · exact h.1
      · exact ih h.2 p hkm

theorem nativesList_append {xs ys : List PyVal} (hx : nativesList xs = true)
    (hy : nativesList ys = true) : nativesList (xs ++ ys) = true := by
  induction xs with
  | nil => exact hy
  | cons a t ih =>
      rw [nativesList, Bool.and_eq_true] at hx
      rw [List.cons_append, nativesList, Bool.and_eq_true]
      exact ⟨hx.1, ih hx.2⟩

theorem loadsList_dumpsList (xs : List PyVal)
    (h : ∀ x ∈ xs, loads (dumps x) = x) : loadsList (dumpsList xs) = xs := by
  induction xs with
  | nil => rfl
  | cons a t ih =>
      rw [dumpsList, loadsList, h a (List.mem_cons_self a t),
        ih (fun x hx => h x (List.mem_cons_of_mem a hx))]

theorem loadsKV_dumpsKV (kvs : List (String × PyVal))
    (h : ∀ p ∈ kvs, loads (dumps p.2) = p.2) : loadsKV (dumpsKV kvs) = kvs := by
  induction kvs with
  | nil => rfl
  | cons a t ih =>
      rcases a with ⟨k, v⟩
      rw [dumpsKV, loadsKV, h (k, v) (List.mem_cons_self (k, v) t),
        ih (fun p hp => h p (List.mem_cons_of_mem (k, v) hp))]

theorem loads_dumps_aux : ∀ (n : Nat) (v : PyVal), sizeOf v ≤ n →
    jsonNative v = true → loads (dumps v) = v := by
  intro n
  induction n with
  | zero =>
      intro v hv _
      exact absurd hv (by cases v <;> simp)
  | succ n ih =>
      intro v hv hnat
      cases v with
      | none => rfl
      | bool b => rfl
      | int k => rfl
      | str s => rfl
      | tuple xs => exact absurd hnat (by rw [jsonNative]; simp)
      | list xs =>
          rw [dumps, loads, loadsList_dumpsList xs]
          intro x hx
          have hsize : sizeOf x < sizeOf (PyVal.list xs) := by
            have h1 : sizeOf x < sizeOf xs := List.sizeOf_lt_of_mem hx
            have h2 : sizeOf (PyVal.list xs) = 1 + sizeOf xs := by simp
            omega
          exact ih x (by omega) (nativesList_mem hnat x hx)
      | dict kvs =>
          rw [dumps, loads, loadsKV_dumpsKV kvs]
          intro p hp
          have hsize : sizeOf p.2 < sizeOf (PyVal.dict kvs) := by
            have h1 : sizeOf p < sizeOf kvs := List.sizeOf_lt_of_mem hp
            have h2 : sizeOf (PyVal.dict kvs) = 1 + sizeOf kvs := by simp
            have h3 : sizeOf p.2 < sizeOf p := by
              rcases p with ⟨a, b⟩
              simp only [Prod.mk.sizeOf_spec]
              omega
            omega
          exact ih p.2 (by omega) (nativesKV_mem hnat p hp)

/-- Values that survive the JSON round trip do so: `json.loads` after
`json.dumps` is the identity on JSON-native Python values. -/
theorem loads_dumps (v : PyVal) (h : jsonNative v = true) :
    loads (dumps v) = v :=
  loads_dumps_aux (sizeOf v) v (Nat.le_refl _) h

/-- Any payload with canonical keys and JSON-native values round-trips:
serialization succeeds and parsing back yields exactly the original
entries (sorted, hence a permutation). -/
theorem roundTrips_of (p : Payload)
    (hkeys : ∀ k ∈ p.map Prod.fst, k ∈ sort_order)
    (hvals : ∀ kv ∈ p, jsonNative kv.2 = true) : roundTrips p := by
  refine ⟨Json.obj ((List.insertionSort keyLe p).map
      (fun kv => (kv.1, dumps kv.2))),
    List.insertionSort keyLe p, ?_, ?_, List.perm_insertionSort keyLe p⟩
  · unfold Notification.strJson
    rw [sort_request_eq_of_keys hkeys]
    rfl
  · show some (loadsKV ((List.insertionSort keyLe p).map
      (fun kv => (kv.1, dumps kv.2)))) = _
    have hgen : ∀ l : Payload, (∀ kv ∈ l, jsonNative kv.2 = true) →
        loadsKV (l.map (fun kv => (kv.1, dumps kv.2))) = l := by
      intro l hl
      induction l with
      | nil => rfl
      | cons a t ih =>
          rcases a with ⟨k, v⟩
          rw [List.map_cons, loadsKV,
            loads_dumps v (hl (k, v) (List.mem_cons_self (k, v) t)),
            ih (fun kv hkv => hl kv (List.mem_cons_of_mem (k, v) hkv))]
    rw [hgen (List.insertionSort keyLe p) (fun kv hkv =>
      hvals kv ((List.mem_insertionSort keyLe).mp hkv))]

/-- All values stored in a built notification payload are JSON-native when
the arguments are. -/
theorem notification_values_native (m : String) (args : List PyVal)
    (kwargs : List (String × PyVal)) (hargs : nativesList args = true)
    (hkw : nativesKV kwargs = true) :
    ∀ kv ∈ Notification.init m args kwargs, jsonNative kv.2 = true := by
  have hwl : nativesList (spec_workingList args kwargs) = true := by
    unfold spec_workingList
    split
    · rw [List.append_nil]
      exact hargs
    · exact nativesList_append hargs (by
        rw [nativesList, jsonNative, hkw]
        rfl)
  have hhead : jsonNative ((spec_workingList args kwargs).headD .none) = true := by
    rcases hl : spec_workingList args kwargs with _ | ⟨a, t⟩
    · rfl
    · rw [hl] at hwl
      rw [nativesList, Bool.and_eq_true] at hwl
      exact hwl.1
  rw [notification_init_eq]
  intro kv hkv
  rcases hkv2 : kv with ⟨k, v⟩
  subst hkv2
  split at hkv
  · rcases List.mem_cons.mp hkv with he | he
    · cases he
      rfl
    · rcases List.mem_cons.mp he with he2 | he2
      · cases he2
        rfl
      · cases he2
  · split at hkv <;>
      · rcases List.mem_cons.mp hkv with he | he
        · cases he
          rfl
        · rcases List.mem_cons.mp he with he2 | he2
          · cases he2
            rfl
          · rcases List.mem_cons.mp he2 with he3 | he3
            · cases he3
              first
              | exact hhead
              | · rw [jsonNative]
                  exact hwl
            · cases he3

theorem nativesKV_of_forall : ∀ {kvs : List (String × PyVal)},
    (∀ p ∈ kvs, jsonNative p.2 = true) → nativesKV kvs = true := by
  intro kvs
  induction kvs with
  | nil => intro _; rfl
  | cons a t ih =>
      intro h
      rcases a with ⟨k, v⟩
      rw [nativesKV, Bool.and_eq_true]
      exact ⟨h (k, v) (List.mem_cons_self (k, v) t),
        ih (fun p hp => h p (List.mem_cons_of_mem (k, v) hp))⟩

theorem lookup_some_mem {k : String} {v : PyVal} {l : Payload}
    (h : l.lookup k = some v) : (k, v) ∈ l := by
  induction l with
  | nil => cases h
  | cons a t ih =>
      rcases a with ⟨b, c⟩
      by_cases hbk : k = b
      · subst hbk
        rw [List.lookup, beq_self_eq_true] at h
        cases h
        exact List.mem_cons_self _ _
      · rw [List.lookup, beq_eq_false_iff_ne.mpr hbk] at h
        exact List.mem_cons_of_mem (b, c) (ih h)

/-- C9 counterexample: a payload holding a tuple does not round-trip — the
tuple serializes as a JSON array and parses back as a list, so the parsed
mapping's `params` value differs from the original payload's. -/
theorem C9_counterexample :
    ((Notification.strJson (Notification.init "pair"
        [PyVal.tuple [PyVal.int 1, PyVal.int 2]] [])).bind parseObj)
      = some [("jsonrpc", PyVal.str "2.0"), ("method", PyVal.str "pair"),
          ("params", PyVal.list [PyVal.list [PyVal.int 1, PyVal.int 2]])] ∧
    (Notification.init "pair" [PyVal.tuple [PyVal.int 1, PyVal.int 2]] []).lookup
        "params" = some (PyVal.list [PyVal.tuple [PyVal.int 1, PyVal.int 2]]) ∧
    PyVal.list [PyVal.list [PyVal.int 1, PyVal.int 2]]
      ≠ PyVal.list [PyVal.tuple [PyVal.int 1, PyVal.int 2]] := by
  refine ⟨rfl, rfl, fun h => ?_⟩
  rw [PyVal.list.injEq, List.cons.injEq] at h
  exact PyVal.noConfusion h.1

/-- C9 (amended): every built payload whose argument values (and, for a
request, whose id value) are JSON-native — no tuples anywhere, since a
tuple comes back from the wire as a list — serializes to text that parses
back to a mapping with exactly the original keys and values. -/
theorem C9_roundtrip_amended (m : String) (args : List PyVal)
    (kwargs : List (String × PyVal)) (gOpt : Option Generator) (w : Generator)
    (hargs : nativesList args = true) (hkw : nativesKV kwargs = true)
    (hg : ∀ g, gOpt = some g → jsonNative (g.values g.cursor) = true)
    (hw : jsonNative (w.values w.cursor) = true) :
    roundTrips (Notification.init m args kwargs) ∧
    roundTrips ((Request.initSt m args gOpt kwargs w).1) := by
  have herased : nativesKV (kwargs.eraseP (fun p => p.1 == "request_id")) = true := by
    have hsub := List.eraseP_sublist (l := kwargs)
      (p := fun p => p.1 == "request_id")
    exact nativesKV_of_forall (fun p hp => nativesKV_mem hkw p (hsub.mem hp))
  constructor
  · exact roundTrips_of _ (notification_keys_sub m args kwargs)
      (notification_values_native m args kwargs hargs hkw)
  · refine roundTrips_of _ (request_keys_sub m args gOpt kwargs w) ?_
    rw [request_initSt_eq]
    rcases hk : kwargs.lookup "request_id" with _ | v
    · rcases gOpt with _ | g <;> dsimp only <;> intro kv hkv <;>
        rcases List.mem_append.mp hkv with hm | hm
      · exact notification_values_native m args kwargs hargs hkw kv hm
      · have he : kv = ("id", w.values w.cursor) := by simpa using hm
        rw [he]
        exact hw
      · exact notification_values_native m args kwargs hargs hkw kv hm
      · have he : kv = ("id", g.values g.cursor) := by simpa using hm
        rw [he]
        exact hg g rfl
    · dsimp only
      intro kv hkv
      rcases List.mem_append.mp hkv with hm | hm
      · exact notification_values_native m args
          (kwargs.eraseP (fun p => p.1 == "request_id")) hargs herased kv hm
      · have he : kv = ("id", v) := by simpa using hm
        rw [he]
        exact nativesKV_mem hkw ("request_id", v) (lookup_some_mem hk)

/-- C9 amendment witness: a tuple-free notification and request both
round-trip. -/
theorem C9_roundtrip_amended_witness :
    roundTrips (Notification.init "cat" [PyVal.int 1]
      [("name", PyVal.str "Mittens")]) ∧
    roundTrips ((Request.initSt "cat" [PyVal.int 1] Option.none
      [("name", PyVal.str "Mittens")] Request.id_generator).1) :=
  C9_roundtrip_amended "cat" [PyVal.int 1] [("name", PyVal.str "Mittens")]
    Option.none Request.id_generator rfl rfl
    (fun _ hg => Option.noConfusion hg) rfl
